import Mathlib

/-!
Shallow embedding of the Health-Advisor ingestion and query pipeline
(src/process_medquad_data.py, src/scrape_medlineplus.py,
src/query_medical_qa.py) and proofs of the specification claims.
-/

namespace HealthAdvisor

/-! ## XML data model

An XML element as exposed by xml.etree.ElementTree: a tag, the optional
text directly inside the element, and the list of child elements in
document order. -/

inductive XmlElem where
  | node (tag : String) (text : Option String) (children : List XmlElem)

def XmlElem.tag : XmlElem → String
  | .node t _ _ => t

def XmlElem.text : XmlElem → Option String
  | .node _ x _ => x

def XmlElem.children : XmlElem → List XmlElem
  | .node _ _ c => c

mutual

/-- All proper descendants of an element in document (preorder) order.
Mirrors ElementTree `root.findall(".//TAG")` before tag filtering: the
root itself is excluded. -/
def XmlElem.descendants : XmlElem → List XmlElem
  | .node _ _ cs => XmlElem.descList cs

/-- Descendants of a forest of elements, in document order. -/
def XmlElem.descList : List XmlElem → List XmlElem
  | [] => []
  | c :: rest => c :: (XmlElem.descendants c ++ XmlElem.descList rest)

end

/-- `root.findall(".//tag")`: all descendants with the given tag, in
document order. -/
def XmlElem.findallDesc (e : XmlElem) (t : String) : List XmlElem :=
  e.descendants.filter (fun c => c.tag = t)

/-- `elem.find("tag")`: the first direct child with the given tag. -/
def XmlElem.findChild (e : XmlElem) (t : String) : Option XmlElem :=
  e.children.find? (fun c => c.tag = t)

/-- The input handed to the structured-QA extractor: either text that
fails XML parsing (ET.ParseError) or a parsed tree. -/
inductive XmlInput where
  | malformed
  | tree (root : XmlElem)

structure QAPair where
  question : String
  answer : String
deriving Repr, DecidableEq

/-- Python `str.strip()`: remove leading and trailing whitespace. -/
def stripChars (l : List Char) : List Char :=
  ((l.dropWhile Char.isWhitespace).reverse.dropWhile Char.isWhitespace).reverse

/-- Python `str.strip()` on a string. -/
def pyStrip (s : String) : String :=
  ⟨stripChars s.data⟩

/-- `question_elem.text.strip() if question_elem.text else ""`:
Python truthiness makes both None and the empty string fall to "". -/
def stripOptText (t : Option String) : String :=
  match t with
  | none => ""
  | some s => if s = "" then "" else pyStrip s

/-- The body of the `for qa_pair in root.findall(".//QAPair")` loop of
`extract_qa_from_xml` (lines 27-39): append the pair when both
sub-elements are present with non-empty stripped text. -/
def qaStep (qa_pairs : List QAPair) (qa_pair : XmlElem) : List QAPair :=
  match qa_pair.findChild "Question", qa_pair.findChild "Answer" with
  | some question_elem, some answer_elem =>
    let question := stripOptText question_elem.text
    let answer := stripOptText answer_elem.text
    if question ≠ "" ∧ answer ≠ "" then
      qa_pairs ++ [{ question := question, answer := answer }]
    else qa_pairs
  | _, _ => qa_pairs

/-- Embedding of `extract_qa_from_xml` (process_medquad_data.py, lines
20-44).  Returns the extracted pairs together with the log lines printed
(the except-branch prints an XML parse error and returns []). -/
def extract_qa_from_xml (x : XmlInput) : List QAPair × List String :=
  match x with
  | .malformed => ([], ["Error parsing XML"])
  | .tree root => ((root.findallDesc "QAPair").foldl qaStep [], [])

/-! Claim-side characterization of a good QA pair, written from the
spec's words: a pair is emitted iff the question sub-element and the
answer sub-element are both present with non-empty whitespace-trimmed
text, and the emitted pair carries the trimmed texts. -/

/-- Modelled from the spec wording of claim C1 (for refinement against
`extract_qa_from_xml`). -/
def goodPairOf (e : XmlElem) : Option QAPair :=
  match e.findChild "Question", e.findChild "Answer" with
  | some q, some a =>
    let qt := pyStrip ((q.text).getD "")
    let an := pyStrip ((a.text).getD "")
    if qt ≠ "" ∧ an ≠ "" then some { question := qt, answer := an } else none
  | _, _ => none

/-! ## Documents built from one XML file -/

structure MedDoc where
  id : String
  text : String
  question : String
  answer : String
  source_file : String
deriving Repr, DecidableEq

/-- The `for i, qa in enumerate(qa_pairs)` loop body of
`load_xml_documents_from_directory` (lines 95-109), with the running
index made explicit. -/
def buildDocs (relpath : String) : Nat → List QAPair → List MedDoc
  | _, [] => []
  | i, qa :: rest =>
    { id := relpath ++ "_qa_" ++ toString (i + 1)
      text := "Question: " ++ qa.question ++ "\nAnswer: " ++ qa.answer
      question := qa.question
      answer := qa.answer
      source_file := relpath } :: buildDocs relpath (i + 1) rest

/-- Documents contributed by one file (relative path plus parsed
content) in `load_xml_documents_from_directory`. -/
def docsOfFile (relpath : String) (x : XmlInput) : List MedDoc :=
  buildDocs relpath 0 (extract_qa_from_xml x).1

/-- `if max_files: all_xml_files = all_xml_files[:max_files]`
(lines 75-77).  Python truthiness: None and 0 are both falsy, so no
limit is applied in either case. -/
def applyMaxFiles (max_files : Option Nat) (files : List (String × XmlInput)) :
    List (String × XmlInput) :=
  match max_files with
  | none => files
  | some n => if n = 0 then files else files.take n

/-- Embedding of `load_xml_documents_from_directory` over the discovered
file list (relative path together with the parse outcome of the file's
content). -/
def load_xml_documents_from_directory (files : List (String × XmlInput))
    (max_files : Option Nat) : List MedDoc :=
  (applyMaxFiles max_files files).flatMap (fun pr => docsOfFile pr.1 pr.2)

/-! ## Batched ingestion (process_medquad_data.py, lines 118-143) -/

structure MedMeta where
  question : String
  answer : String
  source_file : String
deriving Repr, DecidableEq

/-- One `collection.add(documents, metadatas, ids)` call: the three
parallel sequences prepared for a batch. -/
structure ChromaBatch where
  ids : List String
  texts : List String
  metadatas : List MedMeta
deriving Repr, DecidableEq

/-- `range(start, stop, step)` over naturals, as used by
`for i in range(0, total_docs, batch_size)` (step ≥ 1 in all call
sites; Python raises on step 0, modelled as the empty range). -/
def pythonRange (start stop step : Nat) : List Nat :=
  if step = 0 then []
  else (List.range ((stop - start + step - 1) / step)).map (fun k => start + k * step)

/-- The three parallel lists prepared from one batch slice
(lines 129-131). -/
def mkBatch (batch : List MedDoc) : ChromaBatch :=
  { ids := batch.map (fun d => d.id)
    texts := batch.map (fun d => d.text)
    metadatas := batch.map (fun d =>
      { question := d.question, answer := d.answer, source_file := d.source_file }) }

/-- Embedding of `add_documents_to_chroma_batch`: the sequence of
`collection.add` calls issued, in submission order.  Each loop
iteration slices `documents[i:i+batch_size]` and submits one call. -/
def add_documents_to_chroma_batch (documents : List MedDoc) (batch_size : Nat) :
    List ChromaBatch :=
  (pythonRange 0 documents.length batch_size).map (fun i =>
    mkBatch ((documents.drop i).take batch_size))

/-- Claim-side contiguous chunking (for refinement against the
range-and-slice loop): split a list into chunks of size `b`, final
chunk possibly shorter.  Total for every `b`; agrees with Python's
slicing loop when `b ≥ 1`. -/
def chunksOf {α : Type} (b : Nat) : List α → List (List α)
  | [] => []
  | x :: xs => (x :: xs.take (b - 1)) :: chunksOf b (xs.drop (b - 1))
termination_by l => l.length
decreasing_by
  simp only [List.length_drop, List.length_cons]
  omega

/-! ## Runtime of the ingestion loop against a fallible store (claim C4)

The Python loop has no try/except around `collection.add`: an exception
raised by the store propagates out of `add_documents_to_chroma_batch`
and terminates the loop.  `runAddLoop` makes that control flow explicit:
it returns the batches whose `collection.add` call was actually issued,
and the store error that escaped, if any. -/

/-- A store rejection (the exception raised by `collection.add`). -/
structure StoreErr where
  msg : String
deriving Repr, DecidableEq

/-- Run the submission loop over the prepared batch slices against a
store that may reject a call.  No exception handler exists in the
source, so the first rejection aborts the loop. -/
def runAddLoop (store : ChromaBatch → Option StoreErr) :
    List (List MedDoc) → List ChromaBatch × Option StoreErr
  | [] => ([], none)
  | chunk :: rest =>
    let b := mkBatch chunk
    match store b with
    | some e => ([b], some e)
    | none =>
      let r := runAddLoop store rest
      (b :: r.1, r.2)

/-- `add_documents_to_chroma_batch` executed against a fallible store:
attempted `collection.add` calls in order, and the escaped exception. -/
def add_documents_to_chroma_batch_run (store : ChromaBatch → Option StoreErr)
    (documents : List MedDoc) (batch_size : Nat) :
    List ChromaBatch × Option StoreErr :=
  runAddLoop store
    ((pythonRange 0 documents.length batch_size).map (fun i =>
      (documents.drop i).take batch_size))

/-! ## MedlinePlus article extraction (scrape_medlineplus.py) -/

/-- `re.sub(r"\s+", " ", text)` over the characters: every maximal run
of whitespace becomes a single space.  The boolean state records
whether the previous character belonged to a whitespace run. -/
def collapseWSAux : Bool → List Char → List Char
  | _, [] => []
  | prevWS, c :: cs =>
    if c.isWhitespace then
      if prevWS then collapseWSAux true cs
      else ' ' :: collapseWSAux true cs
    else c :: collapseWSAux false cs

/-- `re.sub(r"\s+", " ", text)`. -/
def collapseWS (l : List Char) : List Char :=
  collapseWSAux false l

/-- `re.sub(r"\s+", " ", content_text).strip()` (line 81). -/
def normalizeWS (s : String) : String :=
  ⟨stripChars (collapseWS s.data)⟩

structure Article where
  title : String
  content : String
  url : String
deriving Repr, DecidableEq

/-- The parts of a fetched article page that `scrape_article_content`
reads: the stripped text of the first `h1` when one exists, and the
raw extracted text of the `div` with id `ency_content` when that
container exists. -/
structure HtmlArticlePage where
  h1Text : Option String
  encyContent : Option String

/-- Embedding of `scrape_article_content` (lines 68-91): title from the
`h1` when available, falling back to the anchor text; no document when
the content container is absent or the normalized content is shorter
than 100 characters. -/
def scrape_article_content (page : HtmlArticlePage) (url anchor_title : String) :
    Option Article :=
  let title := match page.h1Text with
    | some t => t
    | none => anchor_title
  match page.encyContent with
  | none => none
  | some raw =>
    let content_text := normalizeWS raw
    if content_text.length < 100 then none
    else some { title := title, content := content_text, url := url }

/-! ## MedlinePlus ingestion (scrape_medlineplus.py, lines 93-127) -/

structure MLDoc where
  id : String
  text : String
  title : String
  content : String
  source : String
  url : String
deriving Repr, DecidableEq

structure MLMeta where
  title : String
  content : String
  source : String
  url : String
deriving Repr, DecidableEq

structure MLBatch where
  ids : List String
  texts : List String
  metadatas : List MLMeta
deriving Repr, DecidableEq

/-- The `for i, article in enumerate(articles)` loop of
`add_medlineplus_to_chroma` (lines 96-107) with the running index made
explicit.  The `if article:` guard always passes: every element the
caller appends is a non-empty dict, hence truthy. -/
def buildMLDocs : Nat → List Article → List MLDoc
  | _, [] => []
  | i, article :: rest =>
    { id := "medlineplus_" ++ toString (i + 1)
      text := "Title: " ++ article.title ++ "\nContent: " ++ article.content
      title := article.title
      content := article.content
      source := "MedlinePlus Encyclopedia"
      url := article.url } :: buildMLDocs (i + 1) rest

/-- Embedding of `add_medlineplus_to_chroma`: the sequence of
`collection.add` calls issued, in submission order. -/
def add_medlineplus_to_chroma (articles : List Article) (batch_size : Nat) :
    List MLBatch :=
  let documents := buildMLDocs 0 articles
  (pythonRange 0 documents.length batch_size).map (fun i =>
    let batch := (documents.drop i).take batch_size
    { ids := batch.map (fun d => d.id)
      texts := batch.map (fun d => d.text)
      metadatas := batch.map (fun d =>
        { title := d.title, content := d.content, source := d.source, url := d.url }) })

/-! ## Query path (query_medical_qa.py) -/

/-- The index-0 lists of a `collection.query(query_texts=[q],
n_results=top_k)` result: parallel documents, metadatas and distances.
Metadata and distance entries are pass-through values, so their types
are parameters. -/
structure QueryResultLists (μ δ : Type) where
  documents : List String
  metadatas : List μ
  distances : List δ

/-- The dict returned by `query_medical_qa`, extended with the list of
prompts sent to the generative model during the call (the call issues
exactly one `generate_content` request, recorded here). -/
structure QueryOutcome (μ δ : Type) where
  answer : String
  sources : List μ
  distances : List δ
  genRequests : List String

/-- The f-string prompt template of `query_medical_qa` (lines 37-45),
with the context and question substituted. -/
def promptFor (context question : String) : String :=
  "You are a medical assistant. Based on the following medical information, answer the user\x27s question. \n    If the information provided doesn\x27t contain the answer, say so clearly.\n\n    Medical Information:\n    " ++ context ++ "\n\n    User Question: " ++ question ++ "\n\n    Please provide a clear, accurate, and helpful answer based on the medical information above."

/-- Embedding of `query_medical_qa` (lines 23-57).  `gen` is the
generative model (`client.models.generate_content(...).text`);
`results` is what `collection.query` returned.  The function performs
no emptiness check and raises nothing: it always builds the context,
issues one generation call, and returns the dict. -/
def query_medical_qa {μ δ : Type} (gen : String → String)
    (results : QueryResultLists μ δ) (question : String) : QueryOutcome μ δ :=
  let context := String.intercalate "\n\n" results.documents
  let prompt := promptFor context question
  { answer := gen prompt
    sources := results.metadatas
    distances := results.distances
    genRequests := [prompt] }

/-- Embedding of `show_collection_info` (lines 59-67): reports whether
the collection is usable; false exactly when the count is zero. -/
def show_collection_info (count : Nat) : Bool :=
  if count = 0 then false else true

/-- The generation requests `main` (query_medical_qa.py, lines 109-136)
issues when the operator submits `question`: `main` returns before any
query when `show_collection_info()` is false. -/
def query_main_gen_requests {μ δ : Type} (count : Nat) (gen : String → String)
    (results : QueryResultLists μ δ) (question : String) : List String :=
  if show_collection_info count = false then []
  else (query_medical_qa gen results question).genRequests

/-- Claim-side context assembly (spec wording of C7): the retrieved
texts concatenated in retriever order, separated by a blank line. -/
def contextJoin : List String → String
  | [] => ""
  | [d] => d
  | d :: e :: rest => d ++ "\n\n" ++ contextJoin (e :: rest)

/-! ## Store operation traces of the two write runs (claim C9) -/

/-- An operation issued to the vector store during a run. -/
inductive StoreOp where
  | countQuery
  | deleteCollection
  | createCollection
  | addQA (b : ChromaBatch)
  | addML (b : MLBatch)
deriving Repr, DecidableEq

/-- Store operations of the `if documents:` tail of
`process_medquad_data.main` (lines 190-200): the batched adds followed
by the final `collection.count()` report. -/
def ingestQAOps (documents : List MedDoc) : List StoreOp :=
  if documents.isEmpty then []
  else (add_documents_to_chroma_batch documents 50).map StoreOp.addQA ++
    [StoreOp.countQuery]

/-- Store operations issued by `process_medquad_data.main` (lines
167-200) given the pre-existing count, the operator's overwrite answer,
and the documents that loading would produce. -/
def process_medquad_main_ops (existing_count : Nat) (overwrite : Bool)
    (documents : List MedDoc) : List StoreOp :=
  StoreOp.countQuery ::
    (if existing_count > 0 then
      if overwrite then
        StoreOp.deleteCollection :: StoreOp.createCollection :: ingestQAOps documents
      else []
    else ingestQAOps documents)

/-- Store operations issued by `scrape_medlineplus.main` (lines
129-163) given the successfully scraped articles: the batched adds
followed by the final `collection.count()` report.  No count query
precedes the writes. -/
def scrape_medlineplus_main_ops (articles : List Article) : List StoreOp :=
  if articles.isEmpty then []
  else (add_medlineplus_to_chroma articles 50).map StoreOp.addML ++
    [StoreOp.countQuery]

/-! ## Sample inputs used by witnesses -/

/-- A well-formed MedQuAD-style document with one complete QA pair and
one pair missing its answer. -/
def sampleXml : XmlInput :=
  .tree (.node "Document" none
    [.node "QAPairs" none
      [.node "QAPair" none
        [.node "Question" (some " What is glaucoma? ") [],
         .node "Answer" (some "An eye disease. ") []],
       .node "QAPair" none
        [.node "Question" (some "Orphan question?") []]]])

def sampleArticle : Article :=
  { title := "Glaucoma", content := "Glaucoma is an eye disease.", url := "https://medlineplus.gov/ency/article/001620.htm" }

def sampleDoc (s : String) : MedDoc :=
  { id := s, text := s, question := s, answer := s, source_file := s }

/-- A store that rejects exactly the batch whose id list is ["d1"]. -/
def rejectD1 : ChromaBatch → Option StoreErr :=
  fun b => if b.ids = ["d1"] then some { msg := "store rejected batch" } else none

/-! ## Helper lemmas: structured-QA extraction -/

theorem stripOptText_eq_strip_getD (t : Option String) :
    stripOptText t = pyStrip ((t).getD "") := by
  cases t with
  | none => rfl
  | some s =>
    by_cases h : s = "" <;> simp [stripOptText, h, pyStrip, stripChars]

theorem qaStep_eq_goodPairOf (acc : List QAPair) (e : XmlElem) :
    qaStep acc e = (match goodPairOf e with
      | some p => acc ++ [p]
      | none => acc) := by
  unfold qaStep goodPairOf
  cases hq : e.findChild "Question" <;> cases ha : e.findChild "Answer" <;>
    simp only [stripOptText_eq_strip_getD]
  split
  · rename_i hcond
    simp [if_pos hcond]
  · rename_i hcond
    simp [if_neg hcond]

theorem foldl_qaStep_eq (l : List XmlElem) (acc : List QAPair) :
    l.foldl qaStep acc = acc ++ l.filterMap goodPairOf := by
  induction l generalizing acc with
  | nil => simp
  | cons x xs ih =>
    rw [List.foldl_cons, List.filterMap_cons, qaStep_eq_goodPairOf]
    cases h : goodPairOf x <;> simp [h, ih]

/-- The extraction loop is the filter-map of the claim-side pair
characterization over the QAPair descendants. -/
theorem extract_tree_eq (root : XmlElem) :
    (extract_qa_from_xml (.tree root)).1 =
      (root.findallDesc "QAPair").filterMap goodPairOf := by
  simp [extract_qa_from_xml, foldl_qaStep_eq]

theorem buildDocs_map_text (relpath : String) (k : Nat) (qas : List QAPair) :
    (buildDocs relpath k qas).map MedDoc.text =
      qas.map (fun qa => "Question: " ++ qa.question ++ "\nAnswer: " ++ qa.answer) := by
  induction qas generalizing k with
  | nil => rfl
  | cons qa rest ih => simp [buildDocs, ih]

theorem buildDocs_length (relpath : String) (k : Nat) (qas : List QAPair) :
    (buildDocs relpath k qas).length = qas.length := by
  induction qas generalizing k with
  | nil => rfl
  | cons qa rest ih => simp [buildDocs, ih]

theorem buildDocs_get_id (relpath : String) (qas : List QAPair) (k i : Nat)
    (h : i < (buildDocs relpath k qas).length) :
    ((buildDocs relpath k qas).get ⟨i, h⟩).id =
      relpath ++ "_qa_" ++ toString (k + i + 1) := by
  induction qas generalizing k i with
  | nil => simp [buildDocs] at h
  | cons qa rest ih =>
    cases i with
    | zero => rfl
    | succ j =>
      have hj : j < (buildDocs relpath (k + 1) rest).length := by
        simpa [buildDocs, Nat.succ_lt_succ_iff] using h
      have := ih (k + 1) j hj
      simpa [buildDocs, Nat.add_assoc, Nat.add_comm, Nat.add_left_comm] using this

theorem buildMLDocs_length (k : Nat) (arts : List Article) :
    (buildMLDocs k arts).length = arts.length := by
  induction arts generalizing k with
  | nil => rfl
  | cons a rest ih => simp [buildMLDocs, ih]

theorem buildMLDocs_get_id (arts : List Article) (k i : Nat)
    (h : i < (buildMLDocs k arts).length) :
    ((buildMLDocs k arts).get ⟨i, h⟩).id = "medlineplus_" ++ toString (k + i + 1) := by
  induction arts generalizing k i with
  | nil => simp [buildMLDocs] at h
  | cons a rest ih =>
    cases i with
    | zero => rfl
    | succ j =>
      have hj : j < (buildMLDocs (k + 1) rest).length := by
        simpa [buildMLDocs, Nat.succ_lt_succ_iff] using h
      have := ih (k + 1) j hj
      simpa [buildMLDocs, Nat.add_assoc, Nat.add_comm, Nat.add_left_comm] using this

/-! ## Helper lemmas: batching -/

theorem ceil_div_succ (n b : Nat) (hn : 0 < n) (hb : 0 < b) :
    (n + b - 1) / b = (n - b + b - 1) / b + 1 := by
  rcases le_or_lt b n with h | h
  · have h1 : n - b + b - 1 = n - 1 := by omega
    have h2 : n + b - 1 = (n - 1) + b := by omega
    rw [h1, h2, Nat.add_div_right _ hb]
  · have h1 : n - b + b - 1 = b - 1 := by omega
    have h2 : n + b - 1 = (n - 1) + b := by omega
    rw [h1, h2, Nat.add_div_right _ hb, Nat.div_eq_of_lt (by omega),
      Nat.div_eq_of_lt (by omega)]

/-- The `for i in range(0, total, batch_size)` slicing loop visits
exactly the contiguous chunks of the document list. -/
theorem slices_eq_chunks {α : Type} (b' : Nat) (docs : List α) :
    (pythonRange 0 docs.length (b' + 1)).map (fun i => (docs.drop i).take (b' + 1)) =
      chunksOf (b' + 1) docs := by
  generalize hn : docs.length = n
  induction n using Nat.strong_induction_on generalizing docs with
  | _ n ih =>
    cases docs with
    | nil =>
      simp only [List.length_nil] at hn
      subst hn
      simp [pythonRange, chunksOf, Nat.div_eq_of_lt]
    | cons x xs =>
      have hb : 0 < b' + 1 := Nat.succ_pos b'
      have hnpos : 0 < n := by
        simp only [List.length_cons] at hn
        omega
      have hdiv : (n - 0 + (b' + 1) - 1) / (b' + 1)
          = (n - (b' + 1) + (b' + 1) - 1) / (b' + 1) + 1 := by
        have := ceil_div_succ n (b' + 1) hnpos hb
        simpa using this
      rw [pythonRange, if_neg (Nat.succ_ne_zero b'), hdiv, List.range_succ_eq_map]
      simp only [List.map_cons, List.map_map]
      rw [chunksOf]
      congr 1
      · simp
      · have hlen : (xs.drop b').length = n - (b' + 1) := by
          simp only [List.length_cons] at hn
          simp only [List.length_drop]
          omega
        have ihh := ih (n - (b' + 1)) (by omega) (xs.drop b') hlen
        rw [pythonRange, if_neg (Nat.succ_ne_zero b'), List.map_map] at ihh
        rw [show b' + 1 - 1 = b' from rfl, ← ihh]
        apply List.map_congr_left
        intro k _
        simp only [Function.comp_apply, Nat.zero_add]
        congr 1
        rw [List.drop_drop, Nat.succ_mul,
          show k * (b' + 1) + (b' + 1) = (k * (b' + 1) + b') + 1 by omega,
          List.drop_succ_cons]
        congr 1
        omega

/-- As `slices_eq_chunks`, with a per-chunk postprocessing map. -/
theorem slices_map_eq_chunks {α β : Type} (f : List α → β) (b' : Nat) (docs : List α) :
    (pythonRange 0 docs.length (b' + 1)).map (fun i => f ((docs.drop i).take (b' + 1))) =
      (chunksOf (b' + 1) docs).map f := by
  have h := congrArg (List.map f) (slices_eq_chunks b' docs)
  rw [List.map_map] at h
  exact h

theorem chunksOf_flatten {α : Type} (b : Nat) (l : List α) :
    (chunksOf b l).flatten = l := by
  induction l using chunksOf.induct b with
  | case1 => rw [chunksOf]; rfl
  | case2 x xs ih =>
    rw [chunksOf, List.flatten_cons, ih, List.cons_append, List.take_append_drop]

theorem chunksOf_mem_length_le {α : Type} (b' : Nat) (l : List α) :
    ∀ c ∈ chunksOf (b' + 1) l, c.length ≤ b' + 1 := by
  induction l using chunksOf.induct (b' + 1) with
  | case1 =>
    intro c hc
    rw [chunksOf] at hc
    cases hc
  | case2 x xs ih =>
    intro c hc
    rw [chunksOf] at hc
    rcases List.mem_cons.mp hc with rfl | hmem
    · simp only [List.length_cons, List.length_take]
      omega
    · exact ih c hmem

theorem chunksOf_dropLast_length {α : Type} (b' : Nat) (l : List α) :
    ∀ c ∈ (chunksOf (b' + 1) l).dropLast, c.length = b' + 1 := by
  induction l using chunksOf.induct (b' + 1) with
  | case1 =>
    intro c hc
    rw [chunksOf] at hc
    cases hc
  | case2 x xs ih =>
    intro c hc
    rw [chunksOf] at hc
    cases htail : chunksOf (b' + 1) (xs.drop (b' + 1 - 1)) with
    | nil =>
      rw [htail] at hc
      cases hc
    | cons h t =>
      rw [htail] at hc
      rw [List.dropLast_cons_of_ne_nil (List.cons_ne_nil h t)] at hc
      rcases List.mem_cons.mp hc with rfl | hmem
      · have hne : xs.drop (b' + 1 - 1) ≠ [] := by
          intro he
          rw [he, chunksOf] at htail
          cases htail
        have hlt : b' + 1 - 1 < xs.length := by
          by_contra hge
          push_neg at hge
          exact hne (List.drop_eq_nil_of_le (by omega))
        simp only [List.length_cons, List.length_take]
        omega
      · exact ih c (htail ▸ hmem)

/-! ## Claims C1, C2, C8, C10 -/

/-- Claim C1: for every well-formed XML input, the structured-QA
extractor emits exactly one pair (hence one Document) for each QAPair
element whose Question and Answer children are both present with
non-empty whitespace-trimmed text — the pair carrying the trimmed
texts — and the Document text is "Question: q", newline, "Answer: a";
a pair missing either field, or whose trimmed text is empty, yields
none. -/
theorem claim_C1_structured_qa_extraction (root : XmlElem) (relpath : String) :
    (extract_qa_from_xml (XmlInput.tree root)).1 =
      (root.findallDesc "QAPair").filterMap goodPairOf
    ∧ (docsOfFile relpath (XmlInput.tree root)).map MedDoc.text =
      ((root.findallDesc "QAPair").filterMap goodPairOf).map
        (fun qa => "Question: " ++ qa.question ++ "\nAnswer: " ++ qa.answer) := by
  refine ⟨extract_tree_eq root, ?_⟩
  rw [docsOfFile, buildDocs_map_text, extract_tree_eq]

/-- Claim C2: identity assignment is deterministic and stable: a
structured-QA Document id is the relative source path followed by
"_qa_" and the 1-based ordinal among the extracted pairs of that file;
an article Document id is "medlineplus_" followed by the 1-based
scrape-order counter; re-running over unchanged sources reproduces
identical results. -/
theorem claim_C2_stable_identity :
    (∀ (relpath : String) (x : XmlInput) (i : Nat)
        (h : i < (docsOfFile relpath x).length),
      ((docsOfFile relpath x).get ⟨i, h⟩).id = relpath ++ "_qa_" ++ toString (i + 1))
    ∧ (∀ (articles : List Article) (i : Nat)
        (h : i < (buildMLDocs 0 articles).length),
      ((buildMLDocs 0 articles).get ⟨i, h⟩).id = "medlineplus_" ++ toString (i + 1))
    ∧ (∀ (files : List (String × XmlInput)) (mf : Option Nat),
      load_xml_documents_from_directory files mf =
        load_xml_documents_from_directory files mf)
    ∧ (∀ (articles : List Article) (b : Nat),
      add_medlineplus_to_chroma articles b = add_medlineplus_to_chroma articles b) := by
  refine ⟨?_, ?_, fun _ _ => rfl, fun _ _ => rfl⟩
  · intro relpath x i h
    have := buildDocs_get_id relpath (extract_qa_from_xml x).1 0 i h
    simpa [docsOfFile] using this
  · intro arts i h
    have := buildMLDocs_get_id arts 0 i h
    simpa using this

/-- Witness for C2 at a concrete file and article list. -/
theorem claim_C2_stable_identity_witness :
    ((docsOfFile "1_CancerGov_QA/0000001.xml" sampleXml).get ⟨0, by decide⟩).id =
      "1_CancerGov_QA/0000001.xml" ++ "_qa_" ++ toString (0 + 1)
    ∧ ((buildMLDocs 0 [sampleArticle]).get ⟨0, by decide⟩).id =
      "medlineplus_" ++ toString (0 + 1) :=
  ⟨claim_C2_stable_identity.1 "1_CancerGov_QA/0000001.xml" sampleXml 0 (by decide),
   claim_C2_stable_identity.2.1 [sampleArticle] 0 (by decide)⟩

/-- Claim C8: malformed XML fails per-file only: the parse failure is
logged, the file contributes zero Documents, and the run continues
with the remaining files unchanged. -/
theorem claim_C8_malformed_per_file (p : String) (fs1 fs2 : List (String × XmlInput)) :
    (extract_qa_from_xml XmlInput.malformed).1 = []
    ∧ (extract_qa_from_xml XmlInput.malformed).2 = ["Error parsing XML"]
    ∧ docsOfFile p XmlInput.malformed = []
    ∧ load_xml_documents_from_directory (fs1 ++ (p, XmlInput.malformed) :: fs2) none =
        load_xml_documents_from_directory fs1 none ++
          load_xml_documents_from_directory fs2 none := by
  refine ⟨rfl, rfl, rfl, ?_⟩
  simp [load_xml_documents_from_directory, applyMaxFiles, docsOfFile,
    extract_qa_from_xml, buildDocs]

/-- Claim C10: a max_files argument of 0 applies no limit at all
(Python truthiness makes 0 behave exactly like None), while a positive
n processes only the first n discovered files. -/
theorem claim_C10_max_files_zero (files : List (String × XmlInput)) :
    load_xml_documents_from_directory files (some 0) =
      load_xml_documents_from_directory files none
    ∧ ∀ n : Nat, 0 < n →
        load_xml_documents_from_directory files (some n) =
          (files.take n).flatMap (fun pr => docsOfFile pr.1 pr.2) := by
  constructor
  · rfl
  · intro n hn
    have hne : n ≠ 0 := Nat.pos_iff_ne_zero.mp hn
    simp [load_xml_documents_from_directory, applyMaxFiles, hne]

def sampleFiles : List (String × XmlInput) :=
  [("a.xml", sampleXml), ("b.xml", XmlInput.malformed), ("c.xml", sampleXml)]

/-- Witness for C10 at a concrete file list and limit 2. -/
theorem claim_C10_max_files_zero_witness :
    0 < 2 ∧ load_xml_documents_from_directory sampleFiles (some 2) =
      (sampleFiles.take 2).flatMap (fun pr => docsOfFile pr.1 pr.2) :=
  ⟨by decide, (claim_C10_max_files_zero sampleFiles).2 2 (by decide)⟩

/-! ## Claim C3: contiguous batching -/

/-- Claim C3: for batch size b ≥ 1, the batched ingestors partition the
document sequence into contiguous chunks — every chunk except possibly
the last of size exactly b, none larger — whose in-order concatenation
is the input sequence, and submit one (ids, texts, metadatas) call per
chunk, in input order.  Shown for both the MedQuAD and the MedlinePlus
ingestor. -/
theorem claim_C3_contiguous_batching (documents : List MedDoc)
    (articles : List Article) (b : Nat) (hb : 1 ≤ b) :
    add_documents_to_chroma_batch documents b = (chunksOf b documents).map mkBatch
    ∧ (chunksOf b documents).flatten = documents
    ∧ (∀ c ∈ (chunksOf b documents).dropLast, c.length = b)
    ∧ (∀ c ∈ chunksOf b documents, c.length ≤ b)
    ∧ add_medlineplus_to_chroma articles b =
        (chunksOf b (buildMLDocs 0 articles)).map (fun batch =>
          { ids := batch.map (fun d => d.id)
            texts := batch.map (fun d => d.text)
            metadatas := batch.map (fun d =>
              { title := d.title, content := d.content
                source := d.source, url := d.url }) })
    ∧ (chunksOf b (buildMLDocs 0 articles)).flatten = buildMLDocs 0 articles := by
  obtain ⟨b', rfl⟩ : ∃ b', b = b' + 1 := ⟨b - 1, by omega⟩
  refine ⟨?_, chunksOf_flatten _ _, chunksOf_dropLast_length b' _,
    chunksOf_mem_length_le b' _, ?_, chunksOf_flatten _ _⟩
  · rw [add_documents_to_chroma_batch]
    exact slices_map_eq_chunks mkBatch b' documents
  · rw [add_medlineplus_to_chroma]
    exact slices_map_eq_chunks (fun batch =>
      ({ ids := batch.map (fun d => d.id)
         texts := batch.map (fun d => d.text)
         metadatas := batch.map (fun d =>
           { title := d.title, content := d.content
             source := d.source, url := d.url }) } : MLBatch)) b' (buildMLDocs 0 articles)

def c3docs : List MedDoc := [sampleDoc "d1", sampleDoc "d2", sampleDoc "d3"]

/-- Witness for C3 at three documents, one article, batch size 2. -/
theorem claim_C3_contiguous_batching_witness :
    1 ≤ 2 ∧
    (add_documents_to_chroma_batch c3docs 2 = (chunksOf 2 c3docs).map mkBatch
    ∧ (chunksOf 2 c3docs).flatten = c3docs
    ∧ (∀ c ∈ (chunksOf 2 c3docs).dropLast, c.length = 2)
    ∧ (∀ c ∈ chunksOf 2 c3docs, c.length ≤ 2)
    ∧ add_medlineplus_to_chroma [sampleArticle] 2 =
        (chunksOf 2 (buildMLDocs 0 [sampleArticle])).map (fun batch =>
          { ids := batch.map (fun d => d.id)
            texts := batch.map (fun d => d.text)
            metadatas := batch.map (fun d =>
              { title := d.title, content := d.content
                source := d.source, url := d.url }) })
    ∧ (chunksOf 2 (buildMLDocs 0 [sampleArticle])).flatten =
        buildMLDocs 0 [sampleArticle]) :=
  ⟨by decide, claim_C3_contiguous_batching c3docs [sampleArticle] 2 (by decide)⟩

/-! ## Claim C4: behaviour of a run with a failing batch -/

theorem runAddLoop_cons_none {store : ChromaBatch → Option StoreErr}
    {c : List MedDoc} {rest : List (List MedDoc)}
    (hs : store (mkBatch c) = none) :
    runAddLoop store (c :: rest) =
      (mkBatch c :: (runAddLoop store rest).1, (runAddLoop store rest).2) := by
  rw [runAddLoop]
  simp [hs]

theorem runAddLoop_cons_some {store : ChromaBatch → Option StoreErr}
    {c : List MedDoc} {rest : List (List MedDoc)} {e : StoreErr}
    (hs : store (mkBatch c) = some e) :
    runAddLoop store (c :: rest) = ([mkBatch c], some e) := by
  rw [runAddLoop]
  simp [hs]

/-- A run that escapes no exception issued every batch, in order. -/
theorem runAddLoop_ok (store : ChromaBatch → Option StoreErr)
    (chunks : List (List MedDoc)) :
    (runAddLoop store chunks).2 = none →
      (runAddLoop store chunks).1 = chunks.map mkBatch := by
  induction chunks with
  | nil =>
    intro
    rfl
  | cons c rest ih =>
    intro h
    cases hs : store (mkBatch c) with
    | some e =>
      rw [runAddLoop_cons_some hs] at h
      cases h
    | none =>
      rw [runAddLoop_cons_none hs] at h ⊢
      rw [List.map_cons]
      exact congrArg (mkBatch c :: ·) (ih h)

/-- A run that escapes an exception attempted exactly the batches up to
and including the first failing one; all earlier calls succeeded and
the failing call's error is the one surfaced. -/
theorem runAddLoop_err (store : ChromaBatch → Option StoreErr)
    (chunks : List (List MedDoc)) (e : StoreErr) :
    (runAddLoop store chunks).2 = some e →
      ∃ k, ∃ hk : k < chunks.length,
        (runAddLoop store chunks).1 = ((chunks.take (k + 1)).map mkBatch)
        ∧ store (mkBatch (chunks.get ⟨k, hk⟩)) = some e
        ∧ ∀ c ∈ chunks.take k, store (mkBatch c) = none := by
  induction chunks with
  | nil =>
    intro h
    cases h
  | cons c rest ih =>
    intro h
    cases hs : store (mkBatch c) with
    | some e' =>
      rw [runAddLoop_cons_some hs] at h ⊢
      have he : e' = e := by
        simpa using h
      subst he
      exact ⟨0, by simp, by simp, by simpa using hs, by simp⟩
    | none =>
      rw [runAddLoop_cons_none hs] at h ⊢
      simp only at h
      obtain ⟨k, hk, h1, h2, h3⟩ := ih h
      refine ⟨k + 1, by simpa using Nat.succ_lt_succ hk, ?_, ?_, ?_⟩
      · simp only [List.take_succ_cons, List.map_cons]
        exact congrArg (mkBatch c :: ·) h1
      · simpa using h2
      · intro d hd
        rw [List.take_succ_cons] at hd
        rcases List.mem_cons.mp hd with rfl | hmem
        · exact hs
        · exact h3 d hmem

/-- Amended claim C4: with no exception handler around
`collection.add`, a failing batch aborts the run: exactly the batches
up to and including the first failing one are attempted (all earlier
ones succeeded), the store's error propagates to the caller as-is
(with no batch index or id-range context attached), and no subsequent
batch is submitted; when no batch fails, every batch is submitted in
order. -/
theorem claim_C4_amended_failing_batch_aborts_run
    (store : ChromaBatch → Option StoreErr) (documents : List MedDoc)
    (b : Nat) (hb : 1 ≤ b) :
    ((add_documents_to_chroma_batch_run store documents b).2 = none →
      (add_documents_to_chroma_batch_run store documents b).1 =
        add_documents_to_chroma_batch documents b)
    ∧ ∀ e, (add_documents_to_chroma_batch_run store documents b).2 = some e →
        ∃ k, ∃ hk : k < (chunksOf b documents).length,
          (add_documents_to_chroma_batch_run store documents b).1 =
            ((chunksOf b documents).take (k + 1)).map mkBatch
          ∧ store (mkBatch ((chunksOf b documents).get ⟨k, hk⟩)) = some e
          ∧ ∀ c ∈ (chunksOf b documents).take k, store (mkBatch c) = none := by
  obtain ⟨b', rfl⟩ : ∃ b', b = b' + 1 := ⟨b - 1, by omega⟩
  have hru : add_documents_to_chroma_batch_run store documents (b' + 1)
      = runAddLoop store (chunksOf (b' + 1) documents) := by
    rw [add_documents_to_chroma_batch_run, slices_eq_chunks]
  constructor
  · intro h
    rw [hru] at h ⊢
    rw [runAddLoop_ok store _ h, add_documents_to_chroma_batch]
    exact (slices_map_eq_chunks mkBatch b' documents).symm
  · intro e h
    rw [hru] at h ⊢
    exact runAddLoop_err store _ e h

def c4docs : List MedDoc := [sampleDoc "d1", sampleDoc "d2"]

/-- Witness for the amended C4: with batch size 1 and a store that
rejects the batch ["d1"], the failing run attempted exactly the first
batch. -/
theorem claim_C4_amended_witness :
    1 ≤ 1 ∧
    ∃ k, ∃ hk : k < (chunksOf 1 c4docs).length,
      (add_documents_to_chroma_batch_run rejectD1 c4docs 1).1 =
        ((chunksOf 1 c4docs).take (k + 1)).map mkBatch
      ∧ rejectD1 (mkBatch ((chunksOf 1 c4docs).get ⟨k, hk⟩)) =
          some { msg := "store rejected batch" }
      ∧ ∀ c ∈ (chunksOf 1 c4docs).take k, rejectD1 (mkBatch c) = none :=
  ⟨by decide,
   (claim_C4_amended_failing_batch_aborts_run rejectD1 c4docs 1 (by decide)).2
     { msg := "store rejected batch" } (by decide)⟩

/-- Counterexample to C4 as stated: the two-document run with batch
size 1 has two batches to submit, yet when the store rejects the first
batch only that one call is issued — the subsequent batch is never
attempted — and the bare store error escapes. -/
theorem claim_C4_counterexample :
    (add_documents_to_chroma_batch c4docs 1).length = 2
    ∧ (add_documents_to_chroma_batch_run rejectD1 c4docs 1).1 =
        [mkBatch [sampleDoc "d1"]]
    ∧ (add_documents_to_chroma_batch_run rejectD1 c4docs 1).2 =
        some { msg := "store rejected batch" } := by
  decide

/-! ## Claims C5, C7: query path -/

theorem intercalate_go_eq (l : List String) (a : String) :
    String.intercalate.go a "\n\n" l = contextJoin (a :: l) := by
  induction l generalizing a with
  | nil => rw [String.intercalate.go, contextJoin]
  | cons b t ih =>
    rw [String.intercalate.go, ih (a ++ "\n\n" ++ b)]
    cases t with
    | nil => rw [contextJoin, contextJoin, contextJoin]
    | cons c t' =>
      show a ++ "\n\n" ++ b ++ "\n\n" ++ contextJoin (c :: t')
          = a ++ "\n\n" ++ contextJoin (b :: c :: t')
      rw [show contextJoin (b :: c :: t') = b ++ "\n\n" ++ contextJoin (c :: t') from rfl]
      simp [String.append_assoc]

/-- `"\n\n".join(docs)` is the blank-line-separated concatenation in
list order. -/
theorem intercalate_eq_contextJoin (l : List String) :
    String.intercalate "\n\n" l = contextJoin l := by
  cases l with
  | nil => rfl
  | cons a t => rw [String.intercalate, intercalate_go_eq]

/-- Claim C7: for every query and non-empty retrieval result, the synthesizer
concatenates the retrieved texts in retriever order separated by a
blank line, embeds that context and the question in the fixed prompt
template, and returns the model response verbatim together with the
result's metadatas and distances. -/
theorem claim_C7_answer_synthesis {μ δ : Type} (gen : String → String)
    (results : QueryResultLists μ δ) (question : String)
    (_hne : results.documents ≠ []) :
    (query_medical_qa gen results question).answer =
      gen (promptFor (contextJoin results.documents) question)
    ∧ (query_medical_qa gen results question).sources = results.metadatas
    ∧ (query_medical_qa gen results question).distances = results.distances
    ∧ (query_medical_qa gen results question).genRequests =
        [promptFor (contextJoin results.documents) question] := by
  refine ⟨?_, rfl, rfl, ?_⟩
  · show gen (promptFor (String.intercalate "\n\n" results.documents) question) =
      gen (promptFor (contextJoin results.documents) question)
    rw [intercalate_eq_contextJoin]
  · show [promptFor (String.intercalate "\n\n" results.documents) question] =
      [promptFor (contextJoin results.documents) question]
    rw [intercalate_eq_contextJoin]

def sampleResults : QueryResultLists MedMeta Nat :=
  { documents := ["doc one", "doc two"]
    metadatas := [{ question := "q", answer := "a", source_file := "f.xml" }]
    distances := [3, 7] }

/-- Witness for C7 at a concrete two-document retrieval result. -/
theorem claim_C7_answer_synthesis_witness :
    (query_medical_qa (fun p => "echo " ++ p) sampleResults "What is it?").answer =
      (fun p => "echo " ++ p)
        (promptFor (contextJoin sampleResults.documents) "What is it?")
    ∧ (query_medical_qa (fun p => "echo " ++ p) sampleResults "What is it?").sources =
      sampleResults.metadatas
    ∧ (query_medical_qa (fun p => "echo " ++ p) sampleResults "What is it?").distances =
      sampleResults.distances
    ∧ (query_medical_qa (fun p => "echo " ++ p) sampleResults "What is it?").genRequests =
      [promptFor (contextJoin sampleResults.documents) "What is it?"] :=
  claim_C7_answer_synthesis (fun p => "echo " ++ p) sampleResults "What is it?"
    (by decide)

/-- Counterexample to claim C5 as stated: against the empty retrieval
result an empty Collection produces, `query_medical_qa` raises no
error — no EmptyCollectionError exists anywhere in the code — and
still issues one generation call (with an empty context), instead of
failing with no generation call. -/
theorem claim_C5_counterexample :
    (query_medical_qa (fun _ => "model answer")
      ({ documents := [], metadatas := [], distances := [] } :
        QueryResultLists MedMeta Nat)
      "What is diabetes?").genRequests.length = 1 := rfl

/-- Amended claim C5: the retriever itself performs no emptiness check
and signals nothing: on an empty collection's (empty) retrieval result
it still issues exactly one generation call.  The emptiness guard
lives in the query script's entry point instead: show_collection_info
reports false for a zero-count collection and main then exits without
issuing any query or generation call, while for a non-zero count the
query (and its generation call) proceeds. -/
theorem claim_C5_amended_empty_guard_in_main {μ δ : Type}
    (gen : String → String) (results : QueryResultLists μ δ)
    (question : String) :
    (query_medical_qa gen
      ({ documents := [], metadatas := [], distances := [] } :
        QueryResultLists μ δ) question).genRequests.length = 1
    ∧ show_collection_info 0 = false
    ∧ query_main_gen_requests 0 gen results question = []
    ∧ ∀ count : Nat, count ≠ 0 →
        query_main_gen_requests count gen results question =
          (query_medical_qa gen results question).genRequests := by
  refine ⟨rfl, rfl, rfl, ?_⟩
  intro count hc
  simp [query_main_gen_requests, show_collection_info, hc]

/-- Witness for the amended C5 at a non-zero count. -/
theorem claim_C5_amended_witness :
    query_main_gen_requests 3 (fun _ => "model answer") sampleResults "Q?" =
      (query_medical_qa (fun _ => "model answer") sampleResults "Q?").genRequests :=
  (claim_C5_amended_empty_guard_in_main (fun _ => "model answer")
    sampleResults "Q?").2.2.2 3 (by decide)

/-! ## Claim C9: collection lifecycle before a write run -/

def sampleMLBatch : MLBatch :=
  { ids := ["medlineplus_1"]
    texts := ["Title: Glaucoma\nContent: Glaucoma is an eye disease."]
    metadatas := [{ title := "Glaucoma"
                    content := "Glaucoma is an eye disease."
                    source := "MedlinePlus Encyclopedia"
                    url := "https://medlineplus.gov/ency/article/001620.htm" }] }

/-- Counterexample to claim C9 as stated: the MedlinePlus scraper is a
write run whose very first store operation is an ingestion write — its
only count query comes after the writes — so a write run can append to
a non-empty Collection with no choice ever being made. -/
theorem claim_C9_counterexample :
    scrape_medlineplus_main_ops [sampleArticle] =
      [StoreOp.addML sampleMLBatch, StoreOp.countQuery] := by
  decide

/-- Amended claim C9: the MedQuAD processor run does behave as claimed
— its first store operation queries the count; at count zero it
proceeds straight to ingestion; at a non-zero count it either stops
after the count query (no write) or deletes and recreates the
collection before ingesting, per the operator's choice — but the
MedlinePlus scraper run does not: it submits its batched writes with
no preceding count query, counting only afterwards. -/
theorem claim_C9_amended_lifecycle (existing_count : Nat) (overwrite : Bool)
    (documents : List MedDoc) (articles : List Article) :
    (process_medquad_main_ops existing_count overwrite documents).head? =
      some StoreOp.countQuery
    ∧ (existing_count = 0 →
        process_medquad_main_ops existing_count overwrite documents =
          StoreOp.countQuery :: ingestQAOps documents)
    ∧ (0 < existing_count → overwrite = false →
        process_medquad_main_ops existing_count overwrite documents =
          [StoreOp.countQuery])
    ∧ (0 < existing_count → overwrite = true →
        process_medquad_main_ops existing_count overwrite documents =
          StoreOp.countQuery :: StoreOp.deleteCollection ::
            StoreOp.createCollection :: ingestQAOps documents)
    ∧ (articles ≠ [] →
        scrape_medlineplus_main_ops articles =
          (add_medlineplus_to_chroma articles 50).map StoreOp.addML ++
            [StoreOp.countQuery])
    ∧ (∀ op ∈ (add_medlineplus_to_chroma articles 50).map StoreOp.addML,
        op ≠ StoreOp.countQuery) := by
  refine ⟨rfl, ?_, ?_, ?_, ?_, ?_⟩
  · intro h0
    subst h0
    rfl
  · intro hpos hov
    subst hov
    simp [process_medquad_main_ops, hpos]
  · intro hpos hov
    subst hov
    simp [process_medquad_main_ops, hpos]
  · intro hne
    rw [scrape_medlineplus_main_ops, if_neg]
    simpa using hne
  · intro op hop
    rcases List.mem_map.mp hop with ⟨b, _, rfl⟩
    intro hbad
    cases hbad

/-- Witness for the amended C9: a non-empty collection with the
operator declining the overwrite stops after the count query. -/
theorem claim_C9_amended_witness :
    process_medquad_main_ops 5 false c3docs = [StoreOp.countQuery] :=
  (claim_C9_amended_lifecycle 5 false c3docs [sampleArticle]).2.2.1
    (by decide) rfl

/-! ## Claim C6: article extraction and whitespace normalization -/

/-- No two adjacent characters are both whitespace. -/
def noWSRun (l : List Char) : Prop :=
  l.Chain' (fun a b => ¬(a.isWhitespace = true ∧ b.isWhitespace = true))

theorem collapse_true_head (l : List Char) :
    ∀ c, (collapseWSAux true l).head? = some c → c.isWhitespace = false := by
  induction l with
  | nil =>
    intro c hc
    cases hc
  | cons x xs ih =>
    intro c hc
    by_cases hx : x.isWhitespace
    · rw [collapseWSAux, if_pos hx, if_pos rfl] at hc
      exact ih c hc
    · rw [collapseWSAux, if_neg hx] at hc
      simp only [List.head?_cons, Option.some.injEq] at hc
      subst hc
      simpa using hx

theorem collapse_chain (prev : Bool) (l : List Char) :
    noWSRun (collapseWSAux prev l) := by
  induction l generalizing prev with
  | nil =>
    rw [collapseWSAux]
    exact List.chain'_nil
  | cons x xs ih =>
    by_cases hx : x.isWhitespace
    · cases prev with
      | true =>
        rw [collapseWSAux, if_pos hx, if_pos rfl]
        exact ih true
      | false =>
        rw [collapseWSAux, if_pos hx, if_neg (by simp)]
        rw [noWSRun, List.chain'_cons']
        refine ⟨?_, ih true⟩
        intro y hy hbad
        have := collapse_true_head xs y hy
        rw [this] at hbad
        exact absurd hbad.2 (by simp)
    · rw [collapseWSAux, if_neg hx]
      rw [noWSRun, List.chain'_cons']
      refine ⟨?_, ih false⟩
      intro y hy hbad
      exact hx (by simpa using hbad.1)

theorem collapse_ws_is_space (prev : Bool) (l : List Char) :
    ∀ c ∈ collapseWSAux prev l, c.isWhitespace = true → c = ' ' := by
  induction l generalizing prev with
  | nil =>
    intro c hc
    rw [collapseWSAux] at hc
    cases hc
  | cons x xs ih =>
    intro c hc hws
    by_cases hx : x.isWhitespace
    · cases prev with
      | true =>
        rw [collapseWSAux, if_pos hx, if_pos rfl] at hc
        exact ih true c hc hws
      | false =>
        rw [collapseWSAux, if_pos hx, if_neg (by simp)] at hc
        rcases List.mem_cons.mp hc with rfl | hmem
        · rfl
        · exact ih true c hmem hws
    · rw [collapseWSAux, if_neg hx] at hc
      rcases List.mem_cons.mp hc with rfl | hmem
      · exact absurd hws (by simpa using hx)
      · exact ih false c hmem hws

theorem stripChars_between (l : List Char) : stripChars l <:+: l := by
  have h1 : l.dropWhile Char.isWhitespace <:+ l := List.dropWhile_suffix _
  have h2 : (l.dropWhile Char.isWhitespace).reverse.dropWhile Char.isWhitespace <:+
      (l.dropWhile Char.isWhitespace).reverse := List.dropWhile_suffix _
  have h3 : stripChars l <+: l.dropWhile Char.isWhitespace := by
    rw [stripChars]
    have := List.reverse_prefix.mpr h2
    simpa using this
  exact (h3.isInfix).trans h1.isInfix

theorem stripChars_head (l : List Char) :
    ∀ c, (stripChars l).head? = some c → c.isWhitespace = false := by
  intro c hc
  rw [stripChars, List.head?_reverse] at hc
  set A := l.dropWhile Char.isWhitespace with hA
  set B := A.reverse.dropWhile Char.isWhitespace with hB
  have hBne : B ≠ [] := by
    intro he
    rw [he] at hc
    cases hc
  have hsplit : A.reverse.takeWhile Char.isWhitespace ++ B = A.reverse := by
    rw [hB]
    exact List.takeWhile_append_dropWhile _ _
  have hlast : B.getLast? = A.reverse.getLast? := by
    conv_rhs => rw [← hsplit]
    exact (List.getLast?_append_of_ne_nil _ hBne).symm
  rw [hlast, List.getLast?_reverse] at hc
  have := List.head?_dropWhile_not Char.isWhitespace l
  rw [← hA, hc] at this
  simpa using this

theorem stripChars_getLast (l : List Char) :
    ∀ c, (stripChars l).getLast? = some c → c.isWhitespace = false := by
  intro c hc
  rw [stripChars, List.getLast?_reverse] at hc
  have := List.head?_dropWhile_not Char.isWhitespace
    (l.dropWhile Char.isWhitespace).reverse
  rw [hc] at this
  simpa using this

/-- The normalized content has no two adjacent whitespace characters,
its only whitespace character is the single space, and it carries no
leading or trailing whitespace: runs of whitespace are collapsed to
one space and the result is trimmed. -/
theorem normalizeWS_spec (s : String) :
    noWSRun (normalizeWS s).data
    ∧ (∀ c ∈ (normalizeWS s).data, c.isWhitespace = true → c = ' ')
    ∧ (∀ c, (normalizeWS s).data.head? = some c → c.isWhitespace = false)
    ∧ (∀ c, (normalizeWS s).data.getLast? = some c → c.isWhitespace = false) := by
  have hdata : (normalizeWS s).data = stripChars (collapseWS s.data) := rfl
  rw [hdata]
  refine ⟨?_, ?_, stripChars_head _, stripChars_getLast _⟩
  · exact List.Chain'.infix (collapse_chain false s.data) (stripChars_between _)
  · intro c hc hws
    exact collapse_ws_is_space false s.data c
      ((stripChars_between _).sublist.subset hc) hws

theorem buildMLDocs_map_text (k : Nat) (arts : List Article) :
    (buildMLDocs k arts).map MLDoc.text =
      arts.map (fun a => "Title: " ++ a.title ++ "\nContent: " ++ a.content) := by
  induction arts generalizing k with
  | nil => rfl
  | cons a rest ih => simp [buildMLDocs, ih]

/-- Claim C6: extraction of an HTML article page returns no Document
when the ency_content container is absent or the normalized content is
shorter than 100 characters; otherwise it returns exactly one article
whose title is the page's h1 heading (falling back to the supplied
anchor text when no h1 exists) and whose content is the raw container
text with every whitespace run collapsed to a single space and the
ends trimmed; the stored Document text is "Title: t", newline,
"Content: c". -/
theorem claim_C6_article_extraction (page : HtmlArticlePage)
    (url anchor_title : String) :
    (page.encyContent = none →
      scrape_article_content page url anchor_title = none)
    ∧ (∀ raw, page.encyContent = some raw → (normalizeWS raw).length < 100 →
        scrape_article_content page url anchor_title = none)
    ∧ (∀ raw, page.encyContent = some raw → ¬(normalizeWS raw).length < 100 →
        scrape_article_content page url anchor_title =
          some { title := page.h1Text.getD anchor_title
                 content := normalizeWS raw
                 url := url })
    ∧ (∀ s : String,
        noWSRun (normalizeWS s).data
        ∧ (∀ c ∈ (normalizeWS s).data, c.isWhitespace = true → c = ' ')
        ∧ (∀ c, (normalizeWS s).data.head? = some c → c.isWhitespace = false)
        ∧ (∀ c, (normalizeWS s).data.getLast? = some c → c.isWhitespace = false))
    ∧ (∀ arts : List Article,
        (buildMLDocs 0 arts).map MLDoc.text =
          arts.map (fun a => "Title: " ++ a.title ++ "\nContent: " ++ a.content)) := by
  obtain ⟨h1t, ec⟩ := page
  refine ⟨?_, ?_, ?_, normalizeWS_spec, buildMLDocs_map_text 0⟩
  · intro h
    cases h
    cases h1t <;> rfl
  · intro raw hraw hlen
    cases hraw
    simp [scrape_article_content, hlen]
  · intro raw hraw hlen
    cases hraw
    cases h1t <;> simp [scrape_article_content, hlen, Option.getD]

def longContent : String :=
  "Glaucoma is a group of eye conditions  that damage the optic nerve.  This damage is often caused by abnormally high pressure in the eye and can lead to vision loss."

def samplePage : HtmlArticlePage :=
  { h1Text := some "Glaucoma", encyContent := some longContent }

set_option maxRecDepth 4000 in
/-- Witness for C6 at a concrete page whose normalized content exceeds
the 100-character threshold. -/
theorem claim_C6_article_extraction_witness :
    scrape_article_content samplePage
        "https://medlineplus.gov/ency/article/001620.htm" "anchor" =
      some { title := samplePage.h1Text.getD "anchor"
             content := normalizeWS longContent
             url := "https://medlineplus.gov/ency/article/001620.htm" } :=
  (claim_C6_article_extraction samplePage
      "https://medlineplus.gov/ency/article/001620.htm" "anchor").2.2.1
    longContent rfl (by decide)

end HealthAdvisor
